import Mathlib

/-!
Shallow embedding of `src/solana_smart_lottery/src/lib.rs` (the state-management
core of a custodial lottery) together with theorems settling the specification
claims about it.

Modelling conventions:
* Machine integers (`u64`, `u128`) are natural numbers; at every arithmetic
  operation the source performs on them where wrap-around is possible, the
  result is reduced `% 2 ^ 64` respectively `% 2 ^ 128` (release-build wrapping
  semantics).  Subtraction is modelled by `wsub`.
* `Pubkey` is an opaque 32-byte identity; it is modelled as `Nat`, with `0`
  playing the role of `Pubkey::default()` (the all-zero sentinel).
* The two `HashMap`s and the iteration order of `ticket_data` are modelled as
  insertion-ordered association lists: `insertA` replaces the value when the
  key is already present (so the map size does not grow on a key collision,
  exactly as `HashMap::insert`) and appends otherwise.
* Rust renders integers in decimal and compares the resulting `String`s
  bytewise; since only digit bytes occur and their byte order agrees with the
  digit order, the keys `format!("{}{}", a, b)` are modelled as the
  concatenated digit lists `decimalDigits a ++ decimalDigits b` compared by the
  lexicographic order `lexLe`.
* The SHA-256 digest used by ticket-id generation and the external
  `dynamic_rate_limit` cooldown policy (declared but not defined in this file
  of the repository) are abstracted as function parameters.
* Wall-clock readings (`SystemTime::now`) are passed in as an explicit `now`
  argument.
* A method on `&mut self` returning `Result<(), ProgramError>` becomes a
  function `Lottery → Except LotteryError Unit × Lottery` returning the
  outcome together with the state as it is at the `return`, so that mutations
  performed before an early error return (as in `rate_limit`) are kept.
-/

namespace SmartLottery

/-- Participant and admin addresses (Solana `Pubkey`), modelled as naturals;
`0` models `Pubkey::default()`, the all-zero sentinel. -/
abbrev Pubkey := Nat

/-- Error codes of the contract, from the `LotteryError` enum (lines 12-28). -/
inductive LotteryError where
  | RateLimited
  | Unauthorized
  | AlreadyInitialized
  | OutOfTickets
  | InvalidInput
  | InvalidAdmin
  | InvalidPayoutStructure
  | TimeLockAlreadySet
  | InvalidDrawTime
  | InvalidRandomSeed
  | NoTicketsSold
  | InvalidWalletAddress
  | InvalidDeposit
  | DuplicateTicketPurchase
  | AclViolation
  deriving DecidableEq, Repr

/-- Payout table in basis points, from the `PayoutStructure` struct
(lines 76-80); both fields are `u128`. -/
structure PayoutStructure where
  minor : Nat
  grand : Nat
  deriving DecidableEq, Repr

/-- Lottery state, from the `Lottery` struct (lines 83-95).  `ticket_data`
and `rate_limit_map` are association lists modelling the `HashMap`s. -/
structure Lottery where
  ticket_data : List (Nat × Pubkey)
  total_tickets : Nat
  sold_tickets : Nat
  contract_balance : Nat
  ticket_price : Nat
  draw_time : Nat
  random_seed : Nat
  payout_structure : PayoutStructure
  admin_address : Pubkey
  rate_limit_map : List (Pubkey × Nat)
  acl : List Pubkey
  deriving DecidableEq, Repr

/-- Lookup in an association list, modelling `HashMap::get`. -/
def getA {β : Type} (k : Nat) : List (Nat × β) → Option β
  | [] => none
  | (k2, v) :: rest => if k = k2 then some v else getA k rest

/-- Insertion into an association list, modelling `HashMap::insert`: when the
key is already present the stored value is replaced (the size of the map does
not change), otherwise the new binding is appended. -/
def insertA {β : Type} (k : Nat) (v : β) : List (Nat × β) → List (Nat × β)
  | [] => [(k, v)]
  | (k2, v2) :: rest => if k = k2 then (k, v) :: rest else (k2, v2) :: insertA k v rest

/-- Wrapping subtraction of machine integers: `wsub m a b` is `a - b`
modulo `m` for `a, b < m` (release-build semantics of `-` on `uN`). -/
def wsub (m a b : Nat) : Nat := (a + m - b) % m

/-- Auxiliary fuel-based decimal expansion (most significant digit first);
`n + 1` units of fuel always suffice for `n`. -/
def decimalDigitsAux : Nat → Nat → List Nat
  | 0, _ => []
  | fuel + 1, n => if n < 10 then [n] else decimalDigitsAux fuel (n / 10) ++ [n % 10]

/-- Decimal digits, most significant first, of the Rust `format!("{}", n)`
rendering of an unsigned integer (`[0]` for `0`, no leading zeros). -/
def decimalDigits (n : Nat) : List Nat := decimalDigitsAux (n + 1) n

/-- Lexicographic order on digit lists.  Rust compares `String`s bytewise and
a strict prefix is smaller; on decimal renderings the byte order coincides
with the digit order, so this models the `String` ordering used by
`sort_by_key` exactly. -/
def lexLe : List Nat → List Nat → Bool
  | [], _ => true
  | _ :: _, [] => false
  | a :: as, b :: bs => if a < b then true else if b < a then false else lexLe as bs

/-- Constructor `Lottery::new` (lines 99-116). -/
def Lottery.new : Lottery where
  ticket_data := []
  total_tickets := 0
  sold_tickets := 0
  contract_balance := 0
  ticket_price := 0
  draw_time := 0
  random_seed := 0
  payout_structure := { minor := 0, grand := 0 }
  admin_address := 0
  rate_limit_map := []
  acl := []

/-- Method `validate_admin` (lines 118-123); pure, no state change. -/
def Lottery.validate_admin (l : Lottery) (admin_address : Pubkey) :
    Except LotteryError Unit :=
  if admin_address ≠ l.admin_address ∧ l.admin_address ≠ 0 then
    Except.error LotteryError.InvalidAdmin
  else Except.ok ()

/-- Method `initialize_lottery` (lines 125-147).  The payout-percentage sum is
computed in `u128`. -/
def Lottery.initialize_lottery (l : Lottery) (total_tickets : Nat)
    (ticket_price : Nat) (payout_structure : PayoutStructure)
    (admin_address : Pubkey) : Except LotteryError Unit × Lottery :=
  if l.total_tickets ≠ 0 then (Except.error LotteryError.AlreadyInitialized, l)
  else if total_tickets = 0 ∨ ticket_price = 0 ∨ admin_address = 0 then
    (Except.error LotteryError.InvalidInput, l)
  else if (payout_structure.minor + payout_structure.grand) % 2 ^ 128 > 10000 then
    (Except.error LotteryError.InvalidPayoutStructure, l)
  else
    (Except.ok (), { l with
      total_tickets := total_tickets
      ticket_price := ticket_price
      payout_structure := payout_structure
      admin_address := admin_address })

/-- Method `validate_data` (lines 149-154); pure, no state change. -/
def Lottery.validate_data (l : Lottery) (user_deposit : Nat) :
    Except LotteryError Unit :=
  if user_deposit < l.ticket_price then Except.error LotteryError.InvalidDeposit
  else Except.ok ()

/-- Method `check_availability` (lines 170-175); pure, no state change. -/
def Lottery.check_availability (l : Lottery) : Except LotteryError Unit :=
  if l.sold_tickets ≥ l.total_tickets then Except.error LotteryError.OutOfTickets
  else Except.ok ()

/-- Method `allocate_tickets_with_u128` (lines 178-182): validates the deposit
again and credits `contract_balance += user_deposit` (`u128` addition).  It
does not touch `ticket_data` or `sold_tickets`. -/
def Lottery.allocate_tickets_with_u128 (l : Lottery)
    (user_wallet_address : Pubkey) (user_deposit : Nat) :
    Except LotteryError Unit × Lottery :=
  match l.validate_data user_deposit with
  | Except.error e => (Except.error e, l)
  | Except.ok () =>
      (Except.ok (),
        { l with contract_balance := (l.contract_balance + user_deposit) % 2 ^ 128 })

/-- Method `new_ticket` (lines 157-162): `validate_data`, then
`check_availability`, then (after a log line with no state effect)
`allocate_tickets_with_u128`.  Note that it never calls
`allocate_tickets_with_f64`, so no ticket is minted on this path. -/
def Lottery.new_ticket (l : Lottery) (user_wallet_address : Pubkey)
    (user_deposit : Nat) : Except LotteryError Unit × Lottery :=
  match l.validate_data user_deposit with
  | Except.error e => (Except.error e, l)
  | Except.ok () =>
      match l.check_availability with
      | Except.error e => (Except.error e, l)
      | Except.ok () => l.allocate_tickets_with_u128 user_wallet_address user_deposit

/-- Method `generate_unique_ticket_id` (lines 202-208): the first 8 bytes of
the SHA-256 digest of the decimal rendering of the current unix time
concatenated with the decimal rendering of `sold_tickets`.  The digest is an
external primitive, abstracted as the parameter `sha` from the hashed text
(as a digit list) to a natural number, truncated to 64 bits. -/
def Lottery.generate_unique_ticket_id (sha : List Nat → Nat) (now : Nat)
    (l : Lottery) : Nat :=
  sha (decimalDigits now ++ decimalDigits l.sold_tickets) % 2 ^ 64

/-- One iteration of the allocation loop in `allocate_tickets_with_f64`
(lines 194-198): generate an id, insert `id ↦ buyer`, increment
`sold_tickets` (`u64`). -/
def Lottery.mintStep (sha : List Nat → Nat) (now : Nat) (addr : Pubkey)
    (l : Lottery) : Lottery :=
  let ticket_id := l.generate_unique_ticket_id sha now
  { l with
    ticket_data := insertA ticket_id addr l.ticket_data
    sold_tickets := (l.sold_tickets + 1) % 2 ^ 64 }

/-- The allocation loop `for _ in 0..num_tickets` of
`allocate_tickets_with_f64`, iterated `n` times. -/
def Lottery.mintTickets (sha : List Nat → Nat) (now : Nat) (addr : Pubkey) :
    Nat → Lottery → Lottery
  | 0, l => l
  | n + 1, l => Lottery.mintTickets sha now addr n (l.mintStep sha now addr)

/-- Method `allocate_tickets_with_f64` (lines 185-200): rejects the default
wallet, computes `num_tickets = user_deposit / ticket_price` (truncating
`u128` division), rejects the whole batch if it would exceed
`total_tickets` (the sum is computed in `u128`), else mints `num_tickets`
tickets.  (Rust panics on `ticket_price = 0`; here `Nat` division by zero
yields `0` tickets, and the theorems below assume a positive price.) -/
def Lottery.allocate_tickets_with_f64 (sha : List Nat → Nat) (now : Nat)
    (l : Lottery) (user_wallet_address : Pubkey) (user_deposit : Nat) :
    Except LotteryError Unit × Lottery :=
  if user_wallet_address = 0 then
    (Except.error LotteryError.InvalidWalletAddress, l)
  else
    let num_tickets := user_deposit / l.ticket_price
    if (l.sold_tickets + num_tickets) % 2 ^ 128 > l.total_tickets then
      (Except.error LotteryError.OutOfTickets, l)
    else (Except.ok (), l.mintTickets sha now user_wallet_address num_tickets)

/-- Method `activate_time_lock` (lines 211-217): fails if `draw_time` is
already set, else stores `now + predefined_duration` (`u64` addition). -/
def Lottery.activate_time_lock (now : Nat) (l : Lottery)
    (predefined_duration : Nat) : Except LotteryError Unit × Lottery :=
  if l.draw_time ≠ 0 then (Except.error LotteryError.TimeLockAlreadySet, l)
  else (Except.ok (), { l with draw_time := (now + predefined_duration) % 2 ^ 64 })

/-- Method `execute_chainlink_vrf` (lines 220-228): fails with
`InvalidDrawTime` when the draw time is unset or not yet reached; otherwise
stores the literal placeholder `123456` into `random_seed`. -/
def Lottery.execute_chainlink_vrf (now : Nat) (l : Lottery) :
    Except LotteryError Unit × Lottery :=
  if l.draw_time = 0 ∨ now < l.draw_time then
    (Except.error LotteryError.InvalidDrawTime, l)
  else (Except.ok (), { l with random_seed := 123456 })

/-- Sort key used by `sort_tickets` (line 233): the text
`format!("{}{}", key, seed)`, modelled as the concatenated digit lists. -/
def ticketSortKey (seed : Nat) (key : Nat) : List Nat :=
  decimalDigits key ++ decimalDigits seed

/-- One iteration of the map-reconstruction loop of `sort_tickets`
(lines 237-241): `if let Some(val) = ticket_data.get(key) \x7b insert \x7d`. -/
def rebuildStep {β : Type} (old : List (Nat × β)) (acc : List (Nat × β))
    (key : Nat) : List (Nat × β) :=
  match getA key old with
  | some val => insertA key val acc
  | none => acc

/-- Method `sort_tickets` (lines 231-243): collect the keys, sort them by the
textual key (stable sort, as Rust's `sort_by_key`), then rebuild the map by
re-inserting each key with its looked-up value in that order. -/
def Lottery.sort_tickets (l : Lottery) : Lottery :=
  let ticket_vec := (l.ticket_data.map Prod.fst).mergeSort
      (fun a b => lexLe (ticketSortKey l.random_seed a) (ticketSortKey l.random_seed b))
  let sorted_map := ticket_vec.foldl (rebuildStep l.ticket_data) []
  { l with ticket_data := sorted_map }

/-- Method `execute_rng` (lines 245-251): requires a non-zero seed, then
sorts the tickets. -/
def Lottery.execute_rng (l : Lottery) : Except LotteryError Unit × Lottery :=
  if l.random_seed = 0 then (Except.error LotteryError.InvalidRandomSeed, l)
  else (Except.ok (), l.sort_tickets)

/-- Method `select_winners` (lines 253-261): fails when no ticket exists;
else the minor winners are the first `total_tickets / 10` keys in iteration
order and the grand winner is the first key. -/
def Lottery.select_winners (l : Lottery) :
    Except LotteryError (List Nat × Nat) :=
  match l.ticket_data with
  | [] => Except.error LotteryError.NoTicketsSold
  | (k, _) :: _ =>
      Except.ok ((l.ticket_data.map Prod.fst).take (l.total_tickets / 10), k)

/-- Method `calculate_prizes` (lines 264-268): basis-point shares of the
balance, in `u128` arithmetic with truncating division. -/
def Lottery.calculate_prizes (l : Lottery) : Nat × Nat :=
  (l.contract_balance * l.payout_structure.minor % 2 ^ 128 / 10000,
   l.contract_balance * l.payout_structure.grand % 2 ^ 128 / 10000)

/-- Method `collect_owner_fee` (lines 279-287): computes
`owner_fee = contract_balance * 2 / 10000` in `u128` and subtracts it from
the balance with the plain (wrapping) `-=`. -/
def Lottery.collect_owner_fee (l : Lottery) : Except LotteryError Unit × Lottery :=
  let owner_fee := l.contract_balance * 2 % 2 ^ 128 / 10000
  (Except.ok (),
    { l with contract_balance := wsub (2 ^ 128) l.contract_balance owner_fee })

/-- Method `rate_limit` (lines 306-314).  `entry(caller).or_insert(0)`
inserts a `0` entry for a caller not yet in the map before the cooldown test,
so that insertion survives even when the call is then rejected; on success the
entry is set to `now`.  The `u64` subtraction `current_time - last_time`
wraps.  The cooldown policy `dynamic_rate_limit` is external and passed as a
parameter. -/
def Lottery.rate_limit (dynamic_rate_limit : Pubkey → Nat) (now : Nat)
    (l : Lottery) (caller : Pubkey) : Except LotteryError Unit × Lottery :=
  let last_time := (getA caller l.rate_limit_map).getD 0
  let entered := match getA caller l.rate_limit_map with
    | some _ => l.rate_limit_map
    | none => insertA caller 0 l.rate_limit_map
  if wsub (2 ^ 64) now last_time < dynamic_rate_limit caller then
    (Except.error LotteryError.RateLimited, { l with rate_limit_map := entered })
  else (Except.ok (), { l with rate_limit_map := insertA caller now entered })

/-- Freshness of the ids generated along one run of the allocation loop: each
id produced by `generate_unique_ticket_id`, at the intermediate state where it
is drawn, is not yet a key of the ledger.  This is the uniqueness-in-practice
assumption the source relies on for SHA-256-derived ids. -/
def Lottery.freshMint (sha : List Nat → Nat) (now : Nat) (addr : Pubkey) :
    Nat → Lottery → Bool
  | 0, _ => true
  | n + 1, l =>
      decide (l.generate_unique_ticket_id sha now ∉ l.ticket_data.map Prod.fst) &&
        Lottery.freshMint sha now addr n (l.mintStep sha now addr)

/-- Example state: a freshly initialized lottery with 100 tickets at price 10
and a 500 bp / 200 bp payout table, admin identity 7. -/
def exampleInit : Lottery :=
  (Lottery.new.initialize_lottery 100 10 { minor := 500, grand := 200 } 7).2

/-- Example state whose time lock is armed for unix time 50. -/
def timeLockedState : Lottery := { Lottery.new with draw_time := 50 }

/-- Example state with balance 1 000 000 and the 500 bp / 200 bp payout
table of the spec's prize-math test vector. -/
def prizeExample : Lottery :=
  { Lottery.new with
    contract_balance := 1000000
    payout_structure := { minor := 500, grand := 200 } }

/-- Example state: capacity 100 but only one ticket sold. -/
def fivePercentState : Lottery :=
  { Lottery.new with
    total_tickets := 100
    sold_tickets := 1
    ticket_data := [(1, 7)] }

/-- Example state: capacity 100 with ten tickets sold. -/
def tenSoldState : Lottery :=
  { Lottery.new with
    total_tickets := 100
    sold_tickets := 10
    ticket_data := [(1, 7), (2, 7), (3, 7), (4, 7), (5, 7),
                    (6, 7), (7, 7), (8, 7), (9, 7), (10, 7)] }

/-- Example state: freshly initialized with 10 tickets at price 1. -/
def c2Start : Lottery :=
  (Lottery.new.initialize_lottery 10 1 { minor := 0, grand := 0 } 7).2

/-- Example digest that maps every input to 0, exhibiting a ticket-id
collision of the 64-bit-truncated hash. -/
def collidingSha : List Nat → Nat := fun _ => 0

/-- Example state whose rate-limit map already has an entry for caller 1. -/
def ratedState : Lottery := { Lottery.new with rate_limit_map := [(1, 100)] }

/-- Example state for the draw: two tickets and a non-zero seed. -/
def drawExample : Lottery :=
  { Lottery.new with
    total_tickets := 100
    sold_tickets := 2
    ticket_data := [(2, 7), (1, 9)]
    random_seed := 123456 }

/-! Helper lemmas about the association-list operations, the lexicographic
order, and the allocation loop. -/

theorem insertA_of_not_mem {β : Type} (k : Nat) (v : β) (m : List (Nat × β))
    (h : k ∉ m.map Prod.fst) : insertA k v m = m ++ [(k, v)] := by
  induction m with
  | nil => rfl
  | cons p rest ih =>
      obtain ⟨k2, v2⟩ := p
      simp only [List.map_cons, List.mem_cons] at h
      push_neg at h
      simp [insertA, h.1, ih h.2]

theorem getA_isSome_of_mem {β : Type} (k : Nat) (m : List (Nat × β))
    (h : k ∈ m.map Prod.fst) : (getA k m).isSome := by
  induction m with
  | nil => simp at h
  | cons p rest ih =>
      obtain ⟨k2, v2⟩ := p
      by_cases hk : k = k2
      · simp [getA, hk]
      · simp only [List.map_cons, List.mem_cons] at h
        rcases h with h | h

        · exact absurd h hk
        · simp [getA, hk, ih h]

theorem filterMap_getA_self {β : Type} (m : List (Nat × β))
    (hnd : (m.map Prod.fst).Nodup) :
    (m.map Prod.fst).filterMap (fun k => (getA k m).map (fun v => (k, v))) = m := by
  induction m with
  | nil => rfl
  | cons p rest ih =>
      obtain ⟨k, v⟩ := p
      simp only [List.map_cons, List.nodup_cons] at hnd
      simp only [List.map_cons, List.filterMap_cons]
      rw [show getA k ((k, v) :: rest) = some v from by simp [getA]]
      have hcongr : ∀ k2 ∈ rest.map Prod.fst,
          (getA k2 ((k, v) :: rest)).map (fun v2 => (k2, v2)) =
            (getA k2 rest).map (fun v2 => (k2, v2)) := by
        intro k2 hk2
        have hne : k2 ≠ k := fun h => hnd.1 (h ▸ hk2)
        simp [getA, hne]
      rw [List.filterMap_congr hcongr, ih hnd.2]
      rfl

theorem map_fst_filterMap_getA {β : Type} (old : List (Nat × β)) (ks : List Nat)
    (h : ∀ k ∈ ks, k ∈ old.map Prod.fst) :
    (ks.filterMap (fun k => (getA k old).map (fun v => (k, v)))).map Prod.fst = ks := by
  induction ks with
  | nil => rfl
  | cons k rest ih =>
      have hs := getA_isSome_of_mem k old (h k (List.mem_cons_self k rest))
      cases hg : getA k old with
      | none => rw [hg] at hs; simp at hs
      | some v =>
          simp only [List.filterMap_cons, hg, Option.map_some']
          rw [List.map_cons, ih (fun k2 hk2 => h k2 (List.mem_cons_of_mem _ hk2))]

theorem foldl_insert_rebuild {β : Type} (old : List (Nat × β)) :
    ∀ (ks : List Nat) (m : List (Nat × β)), ks.Nodup →
      (∀ k ∈ ks, k ∉ m.map Prod.fst) →
      ks.foldl (rebuildStep old) m =
        m ++ ks.filterMap (fun k => (getA k old).map (fun v => (k, v))) := by
  intro ks
  induction ks with
  | nil => intro m _ _; simp
  | cons k rest ih =>
      intro m hnd hdisj
      rw [List.nodup_cons] at hnd
      simp only [List.foldl_cons, List.filterMap_cons]
      cases hg : getA k old with
      | none =>
          rw [show rebuildStep old m k = m from by simp [rebuildStep, hg]]
          rw [ih m hnd.2 (fun k2 hk2 => hdisj k2 (List.mem_cons_of_mem _ hk2))]
          rfl
      | some v =>
          rw [show rebuildStep old m k = insertA k v m from by
            simp [rebuildStep, hg]]
          simp only [Option.map_some']
          rw [insertA_of_not_mem k v m (hdisj k (List.mem_cons_self k rest))]
          rw [ih (m ++ [(k, v)]) hnd.2 ?_]
          · rw [List.append_assoc]
            rfl
          · intro k2 hk2
            simp only [List.map_append, List.mem_append, List.map_cons,
              List.map_nil, List.mem_cons]
            rintro (h | h)
            · exact hdisj k2 (List.mem_cons_of_mem _ hk2) h
            · rcases h with h | h
              · exact hnd.1 (h ▸ hk2)
              · simp at h

theorem lexLe_total : ∀ x y : List Nat, (lexLe x y || lexLe y x) = true := by
  intro x
  induction x with
  | nil => intro y; simp [lexLe]
  | cons a as ih =>
      intro y
      cases y with
      | nil => simp [lexLe]
      | cons b bs =>
          by_cases h1 : a < b
          · simp [lexLe, h1]
          · by_cases h2 : b < a
            · simp [lexLe, h1, h2]
            · have hab : a = b := by omega
              subst hab
              simpa [lexLe, h1, h2] using ih bs

theorem lexLe_trans : ∀ x y z : List Nat,
    lexLe x y = true → lexLe y z = true → lexLe x z = true := by
  intro x
  induction x with
  | nil => intro y z _ _; simp [lexLe]
  | cons a as ih =>
      intro y z hxy hyz
      cases y with
      | nil => simp [lexLe] at hxy
      | cons b bs =>
          cases z with
          | nil => simp [lexLe] at hyz
          | cons c cs =>
              simp only [lexLe] at hxy hyz ⊢
              by_cases h1 : a < b
              · by_cases h2 : b < c
                · have hac : a < c := by omega
                  simp [hac]
                · by_cases h3 : c < b
                  · rw [if_neg h2, if_pos h3] at hyz
                    exact absurd hyz (by simp)
                  · have hac : a < c := by omega
                    simp [hac]
              · by_cases h3 : b < a
                · rw [if_neg h1, if_pos h3] at hxy
                  exact absurd hxy (by simp)
                · have hab : a = b := by omega
                  rw [if_neg h1, if_neg h3] at hxy
                  by_cases h2 : b < c
                  · have hac : a < c := by omega
                    simp [hac]
                  · by_cases h4 : c < b
                    · rw [if_neg h2, if_pos h4] at hyz
                      exact absurd hyz (by simp)
                    · have hac : ¬ a < c := by omega
                      have hca : ¬ c < a := by omega
                      rw [if_neg h2, if_neg h4] at hyz
                      rw [if_neg hac, if_neg hca]
                      exact ih bs cs hxy hyz

theorem mintTickets_stats (sha : List Nat → Nat) (now : Nat) (addr : Pubkey) :
    ∀ (n : Nat) (l : Lottery), l.sold_tickets + n < 2 ^ 64 →
      (Lottery.mintTickets sha now addr n l).sold_tickets = l.sold_tickets + n ∧
      (Lottery.freshMint sha now addr n l = true →
        (Lottery.mintTickets sha now addr n l).ticket_data.length =
          l.ticket_data.length + n) ∧
      (Lottery.mintTickets sha now addr n l).total_tickets = l.total_tickets := by
  intro n
  induction n with
  | zero => intro l _; simp [Lottery.mintTickets, Lottery.freshMint]
  | succ n ih =>
      intro l hlt
      have hstep : (l.mintStep sha now addr).sold_tickets = l.sold_tickets + 1 := by
        simp only [Lottery.mintStep]
        exact Nat.mod_eq_of_lt (by omega)
      have hlt2 : (l.mintStep sha now addr).sold_tickets + n < 2 ^ 64 := by
        rw [hstep]; omega
      obtain ⟨ihs, ihl, iht⟩ := ih (l.mintStep sha now addr) hlt2
      refine ⟨?_, ?_, ?_⟩
      · rw [Lottery.mintTickets, ihs, hstep]; omega
      · intro hf
        rw [Lottery.freshMint, Bool.and_eq_true, decide_eq_true_eq] at hf
        rw [Lottery.mintTickets, ihl hf.2]
        have : (l.mintStep sha now addr).ticket_data.length =
            l.ticket_data.length + 1 := by
          simp only [Lottery.mintStep]
          rw [insertA_of_not_mem _ _ _ hf.1]
          simp
        rw [this]; omega
      · rw [Lottery.mintTickets, iht]
        rfl

theorem new_ticket_preserves_ledger (l : Lottery) (addr : Pubkey) (dep : Nat) :
    (l.new_ticket addr dep).2.sold_tickets = l.sold_tickets ∧
    (l.new_ticket addr dep).2.total_tickets = l.total_tickets ∧
    (l.new_ticket addr dep).2.ticket_data = l.ticket_data := by
  unfold Lottery.new_ticket Lottery.allocate_tickets_with_u128
  unfold Lottery.validate_data Lottery.check_availability
  by_cases hv : dep < l.ticket_price <;>
    by_cases ha : l.sold_tickets ≥ l.total_tickets <;>
      simp [hv, ha]

/-! Claim theorems. -/

/-- C1 (code_bug evidence): on an initialized lottery (100 tickets at price
10), a successful `new_ticket` with an exact-price deposit returns `Ok` and
credits the full deposit, but mints no ticket: `sold_tickets` stays 0 and the
ledger stays empty.  `new_ticket` only chains `validate_data`,
`check_availability` and `allocate_tickets_with_u128`; the minting routine
`allocate_tickets_with_f64` is never invoked, contradicting the claim that the
counter rises by `deposit / ticket_price` and the ledger gains that many
fresh entries. -/
theorem C1_new_ticket_mints_no_ticket :
    (exampleInit.new_ticket 5 10).1 = Except.ok () ∧
    (exampleInit.new_ticket 5 10).2.contract_balance =
      exampleInit.contract_balance + 10 ∧
    (exampleInit.new_ticket 5 10).2.sold_tickets = 0 ∧
    (exampleInit.new_ticket 5 10).2.ticket_data = [] := by
  refine ⟨rfl, rfl, rfl, rfl⟩

/-- C3 (counterexample): with `total_tickets = 100`, one sold ticket and a
consistent ledger, `select_winners` succeeds but returns 1 minor winner, not
10: `keys().take(total_tickets / 10)` yields at most `|ticket_data|`
elements. -/
theorem C3_counterexample :
    fivePercentState.total_tickets = 100 ∧
    1 ≤ fivePercentState.sold_tickets ∧
    fivePercentState.sold_tickets ≤ 100 ∧
    fivePercentState.ticket_data.length = fivePercentState.sold_tickets ∧
    Except.map (fun p => p.1.length) fivePercentState.select_winners =
      Except.ok 1 ∧
    (1 : Nat) ≠ 10 := by
  refine ⟨rfl, by decide, by decide, rfl, rfl, by decide⟩

/-- C3 (amended): with `total_tickets = 100`, a consistent ledger and at
least 10 tickets sold, `select_winners` returns exactly `total_tickets / 10
= 10` minor winners; in general the count is `min (total_tickets / 10)
|ticket_data|`, so below 10 sold tickets it falls short of 10. -/
theorem C3_ten_minor_winners (l : Lottery) (ht : l.total_tickets = 100)
    (hlen : l.ticket_data.length = l.sold_tickets)
    (h10 : 10 ≤ l.sold_tickets) (h100 : l.sold_tickets ≤ 100) :
    ∃ w g, l.select_winners = Except.ok (w, g) ∧ w.length = 10 := by
  rcases hd : l.ticket_data with _ | ⟨⟨k, v⟩, rest⟩
  · rw [hd] at hlen
    simp at hlen
    omega
  · refine ⟨(((k, v) :: rest).map Prod.fst).take (l.total_tickets / 10), k, ?_, ?_⟩
    · unfold Lottery.select_winners
      rw [hd]
    · rw [List.length_take, List.length_map]
      have hsold : rest.length + 1 = l.sold_tickets := by
        rw [← hlen, hd]
        simp
      rw [ht]
      simp only [List.length_cons]
      omega

/-- C3 amended witness: ten sold tickets give exactly ten minor winners. -/
theorem C3_ten_minor_winners_witness :
    ∃ w g, tenSoldState.select_winners = Except.ok (w, g) ∧ w.length = 10 :=
  C3_ten_minor_winners tenSoldState rfl rfl (by decide) (by decide)

/-- C5 (code_bug evidence): once the time lock has elapsed,
`execute_chainlink_vrf` succeeds and stores the hardcoded literal `123456`
into `random_seed` — it takes no oracle input at all, contradicting the claim
(and the spec's and the source comment's stated intent) that the seed is the
externally supplied VRF value. -/
theorem C5_seed_hardcoded (now : Nat) (l : Lottery)
    (h1 : l.draw_time ≠ 0) (h2 : l.draw_time ≤ now) :
    l.execute_chainlink_vrf now = (Except.ok (), { l with random_seed := 123456 }) := by
  simp [Lottery.execute_chainlink_vrf, h1, Nat.not_lt.mpr h2]

/-- C5 witness at a concrete elapsed time lock. -/
theorem C5_seed_hardcoded_witness :
    timeLockedState.execute_chainlink_vrf 60 =
      (Except.ok (), { timeLockedState with random_seed := 123456 }) :=
  C5_seed_hardcoded 60 timeLockedState (by decide) (by decide)

/-- C6 (confirmed): a successful `initialize_lottery` forces
`total_tickets ≠ 0`, so any second call, with any arguments, trips the
`AlreadyInitialized` guard before any mutation and returns the state after
the first call unchanged. -/
theorem C6_initialize_write_once (l : Lottery) (t p : Nat)
    (ps : PayoutStructure) (a : Pubkey) (t2 p2 : Nat) (ps2 : PayoutStructure)
    (a2 : Pubkey) (h : (l.initialize_lottery t p ps a).1 = Except.ok ()) :
    (l.initialize_lottery t p ps a).2.initialize_lottery t2 p2 ps2 a2 =
      (Except.error LotteryError.AlreadyInitialized,
       (l.initialize_lottery t p ps a).2) := by
  by_cases h1 : l.total_tickets ≠ 0
  · exfalso
    simp [Lottery.initialize_lottery, h1] at h
  · by_cases h2 : t = 0 ∨ p = 0 ∨ a = 0
    · exfalso
      rw [Lottery.initialize_lottery, if_neg h1, if_pos h2] at h
      exact absurd h (by simp)
    · by_cases h3 : (ps.minor + ps.grand) % 2 ^ 128 > 10000
      · exfalso
        rw [Lottery.initialize_lottery, if_neg h1, if_neg h2, if_pos h3] at h
        exact absurd h (by simp)
      · have hfst : l.initialize_lottery t p ps a =
            (Except.ok (), { l with
              total_tickets := t
              ticket_price := p
              payout_structure := ps
              admin_address := a }) := by
          rw [Lottery.initialize_lottery, if_neg h1, if_neg h2, if_neg h3]
        rw [hfst]
        have ht : t ≠ 0 := by
          push_neg at h2
          exact h2.1
        rw [Lottery.initialize_lottery]
        simp [ht]

/-- C6 witness on a concrete first initialization. -/
theorem C6_initialize_write_once_witness :
    (Lottery.new.initialize_lottery 100 10 { minor := 500, grand := 200 } 7).2.initialize_lottery
        50 20 { minor := 100, grand := 100 } 9 =
      (Except.error LotteryError.AlreadyInitialized,
       (Lottery.new.initialize_lottery 100 10 { minor := 500, grand := 200 } 7).2) :=
  C6_initialize_write_once Lottery.new 100 10 { minor := 500, grand := 200 } 7
    50 20 { minor := 100, grand := 100 } 9 rfl

/-- C8 (confirmed): `calculate_prizes` is the pair of basis-point shares of
the balance computed in 128-bit arithmetic with truncating division: whenever
the `u128` products do not wrap, it equals the exact floor formulas, and on
the spec's test vector (balance 1 000 000, 500 bp, 200 bp) it returns
`(50000, 20000)`. -/
theorem C8_calculate_prizes (l : Lottery)
    (hm : l.contract_balance * l.payout_structure.minor < 2 ^ 128)
    (hg : l.contract_balance * l.payout_structure.grand < 2 ^ 128) :
    l.calculate_prizes =
      (l.contract_balance * l.payout_structure.minor / 10000,
       l.contract_balance * l.payout_structure.grand / 10000) ∧
    prizeExample.calculate_prizes = (50000, 20000) := by
  constructor
  · unfold Lottery.calculate_prizes
    rw [Nat.mod_eq_of_lt hm, Nat.mod_eq_of_lt hg]
  · decide

/-- C8 witness on the spec's concrete prize vector. -/
theorem C8_calculate_prizes_witness :
    prizeExample.calculate_prizes =
      (prizeExample.contract_balance * prizeExample.payout_structure.minor / 10000,
       prizeExample.contract_balance * prizeExample.payout_structure.grand / 10000) ∧
    prizeExample.calculate_prizes = (50000, 20000) :=
  C8_calculate_prizes prizeExample (by decide) (by decide)

/-- C9 (confirmed): `activate_time_lock` on an unset draw time succeeds and
stores `now + duration`; on a set draw time it fails with
`TimeLockAlreadySet` leaving the state untouched; and the seed-assignment
draw step `execute_chainlink_vrf` fails with `InvalidDrawTime`, untouched
state, whenever the draw time is unset or still in the future. -/
theorem C9_time_lock (l : Lottery) (now dur : Nat) :
    (l.draw_time = 0 → now + dur < 2 ^ 64 →
      l.activate_time_lock now dur =
        (Except.ok (), { l with draw_time := now + dur })) ∧
    (l.draw_time ≠ 0 →
      l.activate_time_lock now dur =
        (Except.error LotteryError.TimeLockAlreadySet, l)) ∧
    (l.draw_time = 0 ∨ now < l.draw_time →
      l.execute_chainlink_vrf now =
        (Except.error LotteryError.InvalidDrawTime, l)) := by
  refine ⟨fun h hb => ?_, fun h => ?_, fun h => ?_⟩
  · rw [Lottery.activate_time_lock, if_neg (by simp [h]), Nat.mod_eq_of_lt hb]
  · simp [Lottery.activate_time_lock, h]
  · rcases h with h | h <;> simp [Lottery.execute_chainlink_vrf, h]

/-- C9 witness: arming at time 40 for 10 seconds, re-arming an armed lock,
and drawing before the deadline. -/
theorem C9_time_lock_witness :
    Lottery.new.activate_time_lock 40 10 =
      (Except.ok (), { Lottery.new with draw_time := 50 }) ∧
    timeLockedState.activate_time_lock 40 10 =
      (Except.error LotteryError.TimeLockAlreadySet, timeLockedState) ∧
    timeLockedState.execute_chainlink_vrf 40 =
      (Except.error LotteryError.InvalidDrawTime, timeLockedState) :=
  ⟨(C9_time_lock Lottery.new 40 10).1 (by decide) (by decide),
   (C9_time_lock timeLockedState 40 10).2.1 (by decide),
   (C9_time_lock timeLockedState 40 10).2.2 (Or.inr (by decide))⟩

/-- C10 (confirmed): `collect_owner_fee` deducts exactly the fee
`contract_balance * 2 / 10000` computed in `u128`; the fee never exceeds the
balance, so the (wrapping) subtraction is in fact exact and can never
underflow below zero, and when the doubling does not wrap the deduction is
exactly the claimed floor expression. -/
theorem C10_collect_owner_fee (l : Lottery)
    (hb : l.contract_balance < 2 ^ 128) :
    l.contract_balance * 2 % 2 ^ 128 / 10000 ≤ l.contract_balance ∧
    l.collect_owner_fee =
      (Except.ok (),
       { l with contract_balance :=
           l.contract_balance - l.contract_balance * 2 % 2 ^ 128 / 10000 }) ∧
    (l.contract_balance * 2 < 2 ^ 128 →
      l.collect_owner_fee.2.contract_balance =
        l.contract_balance - l.contract_balance * 2 / 10000) := by
  have hfee : l.contract_balance * 2 % 2 ^ 128 / 10000 ≤ l.contract_balance := by
    calc l.contract_balance * 2 % 2 ^ 128 / 10000
        ≤ l.contract_balance * 2 / 10000 :=
          Nat.div_le_div_right (Nat.mod_le _ _)
      _ ≤ l.contract_balance * 2 / 2 :=
          Nat.div_le_div_left (by omega) (by omega)
      _ = l.contract_balance := Nat.mul_div_cancel _ (by omega)
  have h1 : l.contract_balance + 2 ^ 128 - l.contract_balance * 2 % 2 ^ 128 / 10000 =
      (l.contract_balance - l.contract_balance * 2 % 2 ^ 128 / 10000) + 2 ^ 128 := by
    omega
  have heq : l.collect_owner_fee =
      (Except.ok (),
       { l with contract_balance :=
           l.contract_balance - l.contract_balance * 2 % 2 ^ 128 / 10000 }) := by
    simp only [Lottery.collect_owner_fee, wsub]
    rw [h1, Nat.add_mod_right,
      Nat.mod_eq_of_lt (lt_of_le_of_lt (Nat.sub_le _ _) hb)]
  refine ⟨hfee, heq, fun h2 => ?_⟩
  rw [heq]
  show l.contract_balance - l.contract_balance * 2 % 2 ^ 128 / 10000 = _
  rw [Nat.mod_eq_of_lt h2]

/-- C10 witness on balance 1 000 000: fee 200, exact deduction. -/
theorem C10_collect_owner_fee_witness :
    prizeExample.contract_balance * 2 % 2 ^ 128 / 10000 ≤
      prizeExample.contract_balance ∧
    prizeExample.collect_owner_fee =
      (Except.ok (),
       { prizeExample with contract_balance :=
           prizeExample.contract_balance -
             prizeExample.contract_balance * 2 % 2 ^ 128 / 10000 }) ∧
    (prizeExample.contract_balance * 2 < 2 ^ 128 →
      prizeExample.collect_owner_fee.2.contract_balance =
        prizeExample.contract_balance -
          prizeExample.contract_balance * 2 / 10000) :=
  C10_collect_owner_fee prizeExample (by decide)

/-- C2 (counterexample): starting from a freshly initialized lottery
(10 tickets at price 1) and purchasing two tickets through the minting path
with a digest whose 64-bit truncation collides, the second `insert`
overwrites the first ledger entry: afterwards `sold_tickets = 2` but
`|ticket_data| = 1`, so an id collision does break the claimed equality. -/
theorem C2_counterexample :
    (Lottery.new.initialize_lottery 10 1 { minor := 0, grand := 0 } 7).1 =
      Except.ok () ∧
    (c2Start.allocate_tickets_with_f64 collidingSha 0 5 2).1 = Except.ok () ∧
    (c2Start.allocate_tickets_with_f64 collidingSha 0 5 2).2.sold_tickets = 2 ∧
    (c2Start.allocate_tickets_with_f64 collidingSha 0 5 2).2.ticket_data.length = 1 ∧
    (c2Start.allocate_tickets_with_f64 collidingSha 0 5 2).2.ticket_data = [(0, 5)] :=
  ⟨rfl, rfl, rfl, rfl, rfl⟩

/-- C2 (amended): after every purchase operation, `sold_tickets ≤
total_tickets` holds unconditionally, and `|ticket_data| = sold_tickets` is
preserved provided every id generated during the allocation loop is fresh
(not yet a ledger key); `new_ticket` (which mints nothing) preserves both
unconditionally.  The hypotheses assume a well-formed state: positive ticket
price, `total_tickets` within `u64`, and a non-wrapping `u128` ticket
count. -/
theorem C2_supply_invariant (sha : List Nat → Nat) (now : Nat) (l : Lottery)
    (addr : Pubkey) (dep : Nat)
    (hp : 0 < l.ticket_price)
    (hinv1 : l.sold_tickets ≤ l.total_tickets)
    (hinv2 : l.ticket_data.length = l.sold_tickets)
    (htot : l.total_tickets < 2 ^ 64)
    (hnum : l.sold_tickets + dep / l.ticket_price < 2 ^ 128) :
    ((l.new_ticket addr dep).2.sold_tickets ≤
        (l.new_ticket addr dep).2.total_tickets ∧
      (l.new_ticket addr dep).2.ticket_data.length =
        (l.new_ticket addr dep).2.sold_tickets) ∧
    (l.allocate_tickets_with_f64 sha now addr dep).2.sold_tickets ≤
      (l.allocate_tickets_with_f64 sha now addr dep).2.total_tickets ∧
    (Lottery.freshMint sha now addr (dep / l.ticket_price) l = true →
      (l.allocate_tickets_with_f64 sha now addr dep).2.ticket_data.length =
        (l.allocate_tickets_with_f64 sha now addr dep).2.sold_tickets) := by
  obtain ⟨hs, ht2, hd⟩ := new_ticket_preserves_ledger l addr dep
  refine ⟨⟨?_, ?_⟩, ?_⟩
  · rw [hs, ht2]
    exact hinv1
  · rw [hd, hs]
    exact hinv2
  · by_cases hw : addr = 0
    · have hres : l.allocate_tickets_with_f64 sha now addr dep =
          (Except.error LotteryError.InvalidWalletAddress, l) := by
        simp only [Lottery.allocate_tickets_with_f64]
        rw [if_pos hw]
      rw [hres]
      exact ⟨hinv1, fun _ => hinv2⟩
    · by_cases hb : (l.sold_tickets + dep / l.ticket_price) % 2 ^ 128 > l.total_tickets
      · have hres : l.allocate_tickets_with_f64 sha now addr dep =
            (Except.error LotteryError.OutOfTickets, l) := by
          simp only [Lottery.allocate_tickets_with_f64]
          rw [if_neg hw, if_pos hb]
        rw [hres]
        exact ⟨hinv1, fun _ => hinv2⟩
      · have hres : l.allocate_tickets_with_f64 sha now addr dep =
            (Except.ok (), l.mintTickets sha now addr (dep / l.ticket_price)) := by
          simp only [Lottery.allocate_tickets_with_f64]
          rw [if_neg hw, if_neg hb]
        have hle : l.sold_tickets + dep / l.ticket_price ≤ l.total_tickets := by
          rw [Nat.mod_eq_of_lt hnum] at hb
          omega
        have hlt : l.sold_tickets + dep / l.ticket_price < 2 ^ 64 :=
          lt_of_le_of_lt hle htot
        obtain ⟨ms, ml, mt⟩ :=
          mintTickets_stats sha now addr (dep / l.ticket_price) l hlt
        rw [hres]
        refine ⟨?_, fun hf => ?_⟩
        · rw [ms, mt]
          exact hle
        · rw [ml hf, ms, hinv2]

/-- C2 amended witness: one collision-free purchase on the fresh 10-ticket
lottery keeps both invariants. -/
theorem C2_supply_invariant_witness :
    ((c2Start.new_ticket 5 1).2.sold_tickets ≤
        (c2Start.new_ticket 5 1).2.total_tickets ∧
      (c2Start.new_ticket 5 1).2.ticket_data.length =
        (c2Start.new_ticket 5 1).2.sold_tickets) ∧
    (c2Start.allocate_tickets_with_f64 collidingSha 0 5 1).2.sold_tickets ≤
      (c2Start.allocate_tickets_with_f64 collidingSha 0 5 1).2.total_tickets ∧
    (Lottery.freshMint collidingSha 0 5 (1 / c2Start.ticket_price) c2Start = true →
      (c2Start.allocate_tickets_with_f64 collidingSha 0 5 1).2.ticket_data.length =
        (c2Start.allocate_tickets_with_f64 collidingSha 0 5 1).2.sold_tickets) :=
  C2_supply_invariant collidingSha 0 c2Start 5 1 (by decide) (by decide) rfl
    (by decide) (by decide)

/-- C7 (counterexample): a caller with no rate-limit entry yet, rejected
with `RateLimited` (clock reading 5, cooldown 10), does mutate the state:
`entry(caller).or_insert(0)` has already inserted `caller ↦ 0` into the map
before the cooldown check runs. -/
theorem C7_counterexample :
    (Lottery.new.rate_limit (fun _ => 10) 5 1).1 =
      Except.error LotteryError.RateLimited ∧
    (Lottery.new.rate_limit (fun _ => 10) 5 1).2 ≠ Lottery.new ∧
    (Lottery.new.rate_limit (fun _ => 10) 5 1).2.rate_limit_map = [(1, 0)] := by
  refine ⟨rfl, ?_, rfl⟩
  intro h
  have : (Lottery.new.rate_limit (fun _ => 10) 5 1).2.rate_limit_map =
      Lottery.new.rate_limit_map := by rw [h]
  exact absurd this (by decide)

/-- C7 (amended): on a `RateLimited` rejection every field other than
`rate_limit_map` is left unchanged, and the map itself is unchanged exactly
when the caller already had an entry; for a first-time caller the map gains
the default entry `caller ↦ 0` (no entry is ever updated to `now` on
reject). -/
theorem C7_reject_state (dyn : Pubkey → Nat) (now : Nat) (l : Lottery)
    (caller : Pubkey)
    (h : (l.rate_limit dyn now caller).1 = Except.error LotteryError.RateLimited) :
    (l.rate_limit dyn now caller).2 =
      { l with rate_limit_map :=
          if (getA caller l.rate_limit_map).isSome then l.rate_limit_map
          else insertA caller 0 l.rate_limit_map } := by
  cases hg : getA caller l.rate_limit_map with
  | none =>
      by_cases hc : wsub (2 ^ 64) now 0 < dyn caller
      · have hres : l.rate_limit dyn now caller =
            (Except.error LotteryError.RateLimited,
             { l with rate_limit_map := insertA caller 0 l.rate_limit_map }) := by
          simp only [Lottery.rate_limit, hg, Option.getD_none]
          rw [if_pos hc]
        rw [hres]
        simp [hg]
      · exfalso
        have hres : l.rate_limit dyn now caller =
            (Except.ok (),
             { l with rate_limit_map :=
                 insertA caller now (insertA caller 0 l.rate_limit_map) }) := by
          simp only [Lottery.rate_limit, hg, Option.getD_none]
          rw [if_neg hc]
        rw [hres] at h
        exact absurd h (by simp)
  | some t =>
      by_cases hc : wsub (2 ^ 64) now t < dyn caller
      · have hres : l.rate_limit dyn now caller =
            (Except.error LotteryError.RateLimited,
             { l with rate_limit_map := l.rate_limit_map }) := by
          simp only [Lottery.rate_limit, hg, Option.getD_some]
          rw [if_pos hc]
        rw [hres]
        simp [hg]
      · exfalso
        have hres : l.rate_limit dyn now caller =
            (Except.ok (),
             { l with rate_limit_map := insertA caller now l.rate_limit_map }) := by
          simp only [Lottery.rate_limit, hg, Option.getD_some]
          rw [if_neg hc]
        rw [hres] at h
        exact absurd h (by simp)

/-- C7 amended witness: a repeat call at the very timestamp of the previous
one is rejected and, the caller being already present, leaves the map (and
all other fields) unchanged. -/
theorem C7_reject_state_witness :
    (ratedState.rate_limit (fun _ => 10) 100 1).2 =
      { ratedState with rate_limit_map :=
          (if (getA 1 ratedState.rate_limit_map).isSome then
            ratedState.rate_limit_map
          else insertA 1 0 ratedState.rate_limit_map) } :=
  C7_reject_state (fun _ => 10) 100 ratedState 1 rfl

/-- C4 (confirmed): on any state with a non-zero seed and a well-formed
ledger (distinct ticket ids), `execute_rng` succeeds and its only effect is
to reorder the ledger: the resulting key sequence is sorted under the
lexicographic order on the concatenation of the decimal digits of the ticket
id followed by the decimal digits of the seed, and the resulting ledger is a
permutation of the original, so the set of (ticket id, owner) associations
is unchanged. -/
theorem C4_draw_sorted_permutation (l : Lottery)
    (hseed : l.random_seed ≠ 0)
    (hnd : (l.ticket_data.map Prod.fst).Nodup) :
    l.execute_rng.1 = Except.ok () ∧
    List.Pairwise (fun a b =>
        lexLe (ticketSortKey l.random_seed a) (ticketSortKey l.random_seed b) = true)
      (l.execute_rng.2.ticket_data.map Prod.fst) ∧
    l.execute_rng.2.ticket_data.Perm l.ticket_data ∧
    l.execute_rng.2.random_seed = l.random_seed ∧
    l.execute_rng.2.total_tickets = l.total_tickets ∧
    l.execute_rng.2.sold_tickets = l.sold_tickets := by
  have hrng : l.execute_rng = (Except.ok (), l.sort_tickets) := by
    simp [Lottery.execute_rng, hseed]
  have hperm_ks : ((l.ticket_data.map Prod.fst).mergeSort
      (fun a b =>
        lexLe (ticketSortKey l.random_seed a) (ticketSortKey l.random_seed b))).Perm
      (l.ticket_data.map Prod.fst) := List.mergeSort_perm _ _
  have hnd_ks := hperm_ks.nodup_iff.mpr hnd
  have hmem : ∀ k ∈ (l.ticket_data.map Prod.fst).mergeSort
      (fun a b =>
        lexLe (ticketSortKey l.random_seed a) (ticketSortKey l.random_seed b)),
      k ∈ l.ticket_data.map Prod.fst := fun k hk => hperm_ks.mem_iff.mp hk
  have hdata : l.sort_tickets.ticket_data =
      ((l.ticket_data.map Prod.fst).mergeSort
          (fun a b =>
            lexLe (ticketSortKey l.random_seed a)
              (ticketSortKey l.random_seed b))).filterMap
        (fun k => (getA k l.ticket_data).map (fun v => (k, v))) := by
    have hfold := foldl_insert_rebuild l.ticket_data
      ((l.ticket_data.map Prod.fst).mergeSort
        (fun a b =>
          lexLe (ticketSortKey l.random_seed a) (ticketSortKey l.random_seed b)))
      [] hnd_ks (by intro k hk; simp)
    simpa [Lottery.sort_tickets] using hfold
  rw [hrng]
  refine ⟨rfl, ?_, ?_, rfl, rfl, rfl⟩
  · show List.Pairwise _ (l.sort_tickets.ticket_data.map Prod.fst)
    have hkeys : l.sort_tickets.ticket_data.map Prod.fst =
        (l.ticket_data.map Prod.fst).mergeSort
          (fun a b =>
            lexLe (ticketSortKey l.random_seed a) (ticketSortKey l.random_seed b)) := by
      rw [hdata]
      exact map_fst_filterMap_getA _ _ hmem
    rw [hkeys]
    exact @List.sorted_mergeSort Nat
      (fun a b =>
        lexLe (ticketSortKey l.random_seed a) (ticketSortKey l.random_seed b))
      (fun a b c hab hbc => lexLe_trans _ _ _ hab hbc)
      (fun a b => lexLe_total _ _)
      (l.ticket_data.map Prod.fst)
  · show (l.sort_tickets.ticket_data).Perm l.ticket_data
    rw [hdata]
    have h1 := hperm_ks.filterMap
      (fun k => (getA k l.ticket_data).map (fun v => (k, v)))
    rw [filterMap_getA_self l.ticket_data hnd] at h1
    exact h1

/-- C4 witness: on a two-ticket ledger with seed 123456 the draw succeeds,
sorts and permutes. -/
theorem C4_draw_sorted_permutation_witness :
    drawExample.execute_rng.1 = Except.ok () ∧
    List.Pairwise (fun a b =>
        lexLe (ticketSortKey drawExample.random_seed a)
          (ticketSortKey drawExample.random_seed b) = true)
      (drawExample.execute_rng.2.ticket_data.map Prod.fst) ∧
    drawExample.execute_rng.2.ticket_data.Perm drawExample.ticket_data ∧
    drawExample.execute_rng.2.random_seed = drawExample.random_seed ∧
    drawExample.execute_rng.2.total_tickets = drawExample.total_tickets ∧
    drawExample.execute_rng.2.sold_tickets = drawExample.sold_tickets :=
  C4_draw_sorted_permutation drawExample (by decide) (by decide)

end SmartLottery
